import Mathlib

/-!
Shallow embedding of the kutsche SMTP ingestion gateway.

The per-session handler callbacks (`MailHandler` in `src/smtp_server/mod.rs`),
the filesystem destination (`src/maildest/file_dest.rs`), the per-connection
dispatch loop (`src/main.rs`) and the TLS slice of the configuration loader
(`src/config.rs`) are translated from the source.  External collaborators that
the spec declares out of scope (the `mailin` RFC 5321 state machine, the
`mail_parser` RFC 5322 parser, the `lettre` mailbox parser) are modelled from
the spec's description of their behaviour; each such definition is marked in
its doc comment.
-/

namespace Kutsche

/-- Raw bytes (Rust `Vec<u8>` / `&[u8]` contents) are modelled as lists of
natural numbers, one entry per byte. -/
abbrev Bytes := List Nat

/-- The ASCII carriage-return byte. -/
def CR : Nat := 13

/-- The ASCII line-feed byte. -/
def LF : Nat := 10

/-- Does a byte string end with the two bytes CR LF? -/
def endsCRLF (b : Bytes) : Bool := [CR, LF].isSuffixOf b

/-- The `std::io::ErrorKind` values that matter to the model. -/
inductive IoKind
  | alreadyExists
  | notFound
  | otherIo
deriving DecidableEq

/-- The unified error type of the crate (`Error` in `src/main.rs`).  I/O errors
keep only their `std::io::ErrorKind`; TLS errors keep no payload. -/
inductive Error
  | config (msg : String)
  | mailParsing (msg : String)
  | matrix (msg : String)
  | smtp (msg : String)
  | sysIo (kind : IoKind)
  | tls
deriving DecidableEq

/-- The action field of a `mailin` response. -/
inductive Action
  | reply
  | close
  | upgradeTls
  | noReply
deriving DecidableEq

/-- A `mailin` SMTP response, abstracted to its code and action (the human
readable message text is irrelevant to the model). -/
structure Response where
  code : Nat
  action : Action
deriving DecidableEq

/-- A response is an error response iff its code is in the 4xx/5xx range. -/
def Response.isError (r : Response) : Bool := 400 ≤ r.code

/-- Translation of `mailin::response::Response::custom` with a reply action. -/
def Response.custom (code : Nat) : Response := ⟨code, .reply⟩

namespace response

/-- The constant `mailin::response::OK` (250). -/
def OK : Response := ⟨250, .reply⟩

/-- The constant `mailin::response::BAD_MAILBOX` (550). -/
def BAD_MAILBOX : Response := ⟨550, .reply⟩

/-- The constant `mailin::response::INVALID_CREDENTIALS` (535). -/
def INVALID_CREDENTIALS : Response := ⟨535, .reply⟩

/-- The 354 "start mail input" response sent by `mailin` when DATA is accepted. -/
def START_DATA : Response := ⟨354, .reply⟩

/-- The 221 response to QUIT; its action closes the session. -/
def GOODBYE : Response := ⟨221, .close⟩

/-- The 220 session greeting. -/
def GREETING : Response := ⟨220, .reply⟩

/-- The empty response emitted while swallowing DATA payload lines. -/
def EMPTY : Response := ⟨0, .noReply⟩

/-- The 500 response to an unknown command. -/
def UNKNOWN_COMMAND : Response := ⟨500, .reply⟩

/-- The 503 "bad sequence of commands" response produced by the state machine. -/
def BAD_SEQUENCE : Response := ⟨503, .reply⟩

/-- The 220 response to STARTTLS; its action signals the TLS upgrade. -/
def STARTTLS_OK : Response := ⟨220, .upgradeTls⟩

end response

/-- The bytes of the ASCII header name `Message-ID:`. -/
def messageIdHeader : Bytes := [77, 101, 115, 115, 97, 103, 101, 45, 73, 68, 58]

/-- Modelled from the spec: extraction of the `Message-ID` value from a single
header line.  The value is what follows the header name with whitespace and
line terminators removed; an empty value does not count as a message id
(the spec calls `message_id` a "non-empty string extracted from RFC 5322
`Message-ID:` header"). -/
def lineMessageId (line : Bytes) : Option Bytes :=
  if messageIdHeader.isPrefixOf line then
    let v := (line.drop messageIdHeader.length).filter fun c => c != 32 && c != CR && c != LF
    if v.isEmpty then none else some v
  else none

/-- The result of the external RFC 5322 parser, abstracted to the only part the
core reads: the optional `Message-ID` header value. -/
structure ParsedMessage where
  message_id? : Option Bytes
deriving DecidableEq

/-- Translation of `mail_parser::Message::get_message_id`. -/
def ParsedMessage.get_message_id (m : ParsedMessage) : Option Bytes := m.message_id?

/-- Modelled from the spec: the external RFC 5322 parser
(`mail_parser::Message::parse`), which the spec treats as a pure function from
bytes to a message id or an error.  An empty payload does not parse; otherwise
the parse succeeds and the message id is looked up among the LF-separated
header lines. -/
def messageParse (raw : Bytes) : Option ParsedMessage :=
  if raw.isEmpty then none
  else some ⟨(raw.splitOn LF).findSome? lineMessageId⟩

/-- The parsed payload (`Email` in `src/email.rs`), abstracted to the fields
the core reads: the message id and the raw DATA bytes. -/
structure Email where
  message_id : Bytes
  raw : Bytes
deriving DecidableEq

/-- Translation of `Email::parse` from `src/email.rs`: parse the raw bytes, then require a
`Message-ID` header; each failure is a `MailParsing` error. -/
def Email.parse (raw : Bytes) : Except Error Email :=
  match messageParse raw with
  | some parsed_message =>
    match parsed_message.get_message_id with
    | some id => .ok ⟨id, raw⟩
    | none => .error (.mailParsing "Missing message-id header.")
  | none => .error (.mailParsing "Could not parse RFC5322/RFC822 message.")

/-- One successfully received message (`SmtpEmail` in `src/email.rs`). -/
structure SmtpEmail where
  fromAddr : Option String
  to' : List String
  content : Email
deriving DecidableEq

/-- Translation of `SmtpEmail::new` from `src/email.rs`. -/
def SmtpEmail.new (fromAddr : Option String) (to' : List String) (data : Bytes) :
    Except Error SmtpEmail :=
  (Email.parse data).map fun c => ⟨fromAddr, to', c⟩

/-- A Rust `Vec<u8>` together with the identity of its heap allocation.
`Vec::clear` keeps the allocation (same `allocId`); replacing the vector with a
freshly allocated one would change `allocId`. -/
structure Buf where
  allocId : Nat
  data : Bytes
deriving DecidableEq

/-- Translation of `Vec::clear`: drop the contents, keep the allocation. -/
def Buf.clear (b : Buf) : Buf := { b with data := [] }

/-- Translation of `Vec::extend_from_slice`. -/
def Buf.extend_from_slice (b : Buf) (s : Bytes) : Buf := { b with data := b.data ++ s }

/-- The log lines the embedded code emits, abstracted to their call sites. -/
inductive LogEvent
  | warnInvalidMailbox
  | warnDataStartAfterBufTaken
  | warnDataStartBufNotEmpty
  | warnDataAfterBufTaken
  | errorDataEndTwice
  | errorDataEndAfterError
deriving DecidableEq

instance {ε α : Type} [DecidableEq ε] [DecidableEq α] : DecidableEq (Except ε α) := fun x y =>
  match x, y with
  | .ok a, .ok b =>
    if h : a = b then .isTrue (congrArg Except.ok h)
    else .isFalse fun hc => h (Except.ok.inj hc)
  | .error a, .error b =>
    if h : a = b then .isTrue (congrArg Except.error h)
    else .isFalse fun hc => h (Except.error.inj hc)
  | .ok _, .error _ => .isFalse fun hc => Except.noConfusion hc
  | .error _, .ok _ => .isFalse fun hc => Except.noConfusion hc

/-- The per-session accumulator (`MailHandler` in `src/smtp_server/mod.rs`).
The mutably borrowed result slot `received_mail` is inlined as a field. -/
structure MailHandler where
  fromAddr : Option String
  to' : List String
  msg_buf : Option Buf
  received_mail : Except Error SmtpEmail
deriving DecidableEq

/-- The initial value of the result slot, set in `handle_mail_comm`. -/
def initialSlot : Except Error SmtpEmail := .error (.smtp "No DATA_END reveived.")

/-- Translation of `MailHandler::new` with the fresh result slot of `handle_mail_comm`. -/
def MailHandler.new (buf : Buf) : MailHandler :=
  { fromAddr := none, to' := [], msg_buf := some buf, received_mail := initialSlot }

/-- Modelled from the spec: the external mailbox parser
(`lettre::EmailAddress::new`).  A mailbox is valid iff it consists of a
nonempty local part, a single `@`, and a nonempty domain. -/
def isValidMailbox (s : String) : Bool :=
  match s.data.splitOn '@' with
  | [lp, dom] => !lp.isEmpty && !dom.isEmpty
  | _ => false

/-- The `helo` callback: always 250. -/
def MailHandler.helo (h : MailHandler) : MailHandler × Response × List LogEvent :=
  (h, response.OK, [])

/-- The `mail` callback: store the sender when the mailbox parses, else 550. -/
def MailHandler.mail (h : MailHandler) (fromStr : String) :
    MailHandler × Response × List LogEvent :=
  if isValidMailbox fromStr then ({ h with fromAddr := some fromStr }, response.OK, [])
  else (h, response.BAD_MAILBOX, [.warnInvalidMailbox])

/-- The `rcpt` callback: push the recipient when the mailbox parses, else 550. -/
def MailHandler.rcpt (h : MailHandler) (toStr : String) :
    MailHandler × Response × List LogEvent :=
  if isValidMailbox toStr then ({ h with to' := h.to' ++ [toStr] }, response.OK, [])
  else (h, response.BAD_MAILBOX, [.warnInvalidMailbox])

/-- The `data_start` callback: 503 if the buffer was taken; otherwise clear the
buffer in place (with a warning) if it is nonempty, and answer OK. -/
def MailHandler.data_start (h : MailHandler) : MailHandler × Response × List LogEvent :=
  match h.msg_buf with
  | none => (h, Response.custom 503, [.warnDataStartAfterBufTaken])
  | some b =>
    if b.data.isEmpty then (h, response.OK, [])
    else ({ h with msg_buf := some b.clear }, response.OK, [.warnDataStartBufNotEmpty])

/-- The `data` callback: append the chunk to the buffer, or warn and discard it
when the buffer was taken.  The callback itself always returns `Ok(())`. -/
def MailHandler.data (h : MailHandler) (chunk : Bytes) : MailHandler × List LogEvent :=
  match h.msg_buf with
  | some b => ({ h with msg_buf := some (b.extend_from_slice chunk) }, [])
  | none => (h, [.warnDataAfterBufTaken])

/-- The `data_end` callback.  `none` models the panic of
`self.msg_buf.take().unwrap()` when the buffer was already taken.  Otherwise
the envelope is drained, an `SmtpEmail` is built from the buffer, and the
response depends on the previous contents of the result slot exactly as in the
source `match`. -/
def MailHandler.data_end (h : MailHandler) : Option (MailHandler × Response × List LogEvent) :=
  match h.msg_buf with
  | none => none
  | some buf_ref =>
    let complete_mail := SmtpEmail.new h.fromAddr h.to' buf_ref.data
    let taken : MailHandler :=
      { fromAddr := none, to' := [], msg_buf := none, received_mail := h.received_mail }
    match h.received_mail with
    | .error (.smtp _) =>
      some ({ taken with received_mail := complete_mail }, response.OK, [])
    | .ok _ =>
      some ({ taken with received_mail := .error (.smtp "Received multiple DATA_END.") },
        Response.custom 503, [.errorDataEndTwice])
    | .error _ =>
      some (taken, Response.custom 554, [.errorDataEndAfterError])

/-- The `auth_plain` callback: always 535. -/
def MailHandler.auth_plain (h : MailHandler) : MailHandler × Response × List LogEvent :=
  (h, response.INVALID_CREDENTIALS, [])

/-- A socket address, abstracted to the parts the code reads. -/
structure SocketAddr where
  ip : String
  port : Nat
deriving DecidableEq

/-- The rustls server configuration, abstracted to its SNI certificate-resolver
table (domain name to certified-key material). -/
structure ServerConfig where
  resolver : List (String × Bytes)
deriving DecidableEq

/-- The per-listener server (`SmtpServer` in `src/smtp_server/mod.rs`).  The
TCP listener itself is I/O and is not part of the model. -/
structure SmtpServer where
  start_tls_enabled : Bool
  tls_config : Option ServerConfig
  implicit_tls : Bool
deriving DecidableEq

/-- Translation of `SmtpServer::new`: STARTTLS is enabled on the session builder iff TLS is
configured and the port is not 465; implicit TLS iff TLS is configured and the
port is 465. -/
def SmtpServer.new (addr : SocketAddr) (tls_config : Option ServerConfig) : SmtpServer :=
  { start_tls_enabled := tls_config.isSome && addr.port != 465,
    tls_config := tls_config,
    implicit_tls := tls_config.isSome && addr.port == 465 }

/-- One CRLF-terminated line arriving from the client, pre-classified by the
command grammar.  During the DATA phase a line is raw payload (`dataLine`
carries the body without its trailing CRLF, after dot-unstuffing) or the
terminating dot line (`dataEot`). -/
inductive Line
  | helo (domain : String)
  | mail (fromStr : String)
  | rcpt (toStr : String)
  | dataCmd
  | dataLine (body : Bytes)
  | dataEot
  | quit
  | rset
  | noop
  | authPlain
  | startTls
  | unknown (text : String)
deriving DecidableEq

/-- The bytes of a string, one entry per code point (ASCII in all our uses). -/
def strBytes (s : String) : Bytes := s.data.map Char.toNat

/-- The on-the-wire bytes of a line, without the trailing CRLF. -/
def Line.rawBytes : Line → Bytes
  | .helo d => strBytes ("HELO " ++ d)
  | .mail f => strBytes ("MAIL FROM:<" ++ f ++ ">")
  | .rcpt t => strBytes ("RCPT TO:<" ++ t ++ ">")
  | .dataCmd => strBytes "DATA"
  | .dataLine b => b
  | .dataEot => strBytes "."
  | .quit => strBytes "QUIT"
  | .rset => strBytes "RSET"
  | .noop => strBytes "NOOP"
  | .authPlain => strBytes "AUTH PLAIN"
  | .startTls => strBytes "STARTTLS"
  | .unknown s => strBytes s

/-- Modelled from the spec: the states of the `mailin` session state machine
(spec section 4.B). -/
inductive SState
  | greeted
  | awaitingMail
  | awaitingRcpt
  | awaitingData
  | receivingData
  | closed
deriving DecidableEq

/-- A built `mailin` session: the library state plus the handler it drives. -/
structure Session where
  state : SState
  start_tls_enabled : Bool
  handler : MailHandler
deriving DecidableEq

/-- Modelled from the spec: one `Session::process` step of the external
`mailin` SMTP state machine (spec section 4.B) driving the source-translated
`MailHandler` callbacks.  An error response from a callback leaves the library
state unchanged; a successful `DATA` enters the data phase with a 354; during
the data phase every line except the dot terminator is appended (with its
CRLF restored) through the `data` callback.  `none` models a Rust panic inside
a callback. -/
def Session.process (s : Session) (line : Line) : Option (Session × Response × List LogEvent) :=
  match s.state with
  | .receivingData =>
    match line with
    | .dataEot =>
      match s.handler.data_end with
      | none => none
      | some (h', resp, logs) =>
        some ({ s with state := .awaitingMail, handler := h' }, resp, logs)
    | ℓ =>
      let (h', logs) := s.handler.data (ℓ.rawBytes ++ [CR, LF])
      some ({ s with handler := h' }, response.EMPTY, logs)
  | .closed => some (s, response.BAD_SEQUENCE, [])
  | st =>
    match line with
    | .helo _ =>
      let (h', r, logs) := s.handler.helo
      some ({ s with state := .awaitingMail, handler := h' }, r, logs)
    | .mail f =>
      if st = SState.awaitingMail then
        let (h', r, logs) := s.handler.mail f
        if r.isError then some ({ s with handler := h' }, r, logs)
        else some ({ s with state := .awaitingRcpt, handler := h' }, r, logs)
      else some (s, response.BAD_SEQUENCE, [])
    | .rcpt t =>
      if st = SState.awaitingRcpt ∨ st = SState.awaitingData then
        let (h', r, logs) := s.handler.rcpt t
        if r.isError then some ({ s with handler := h' }, r, logs)
        else some ({ s with state := .awaitingData, handler := h' }, r, logs)
      else some (s, response.BAD_SEQUENCE, [])
    | .dataCmd =>
      if st = SState.awaitingData then
        let (h', r, logs) := s.handler.data_start
        if r.isError then some ({ s with handler := h' }, r, logs)
        else some ({ s with state := .receivingData, handler := h' }, response.START_DATA, logs)
      else some (s, response.BAD_SEQUENCE, [])
    | .dataLine _ => some (s, response.UNKNOWN_COMMAND, [])
    | .dataEot => some (s, response.UNKNOWN_COMMAND, [])
    | .quit => some ({ s with state := .closed }, response.GOODBYE, [])
    | .rset =>
      if st = SState.greeted then some (s, response.OK, [])
      else some ({ s with state := .awaitingMail }, response.OK, [])
    | .noop => some (s, response.OK, [])
    | .authPlain =>
      let (h', r, logs) := s.handler.auth_plain
      some ({ s with handler := h' }, r, logs)
    | .startTls =>
      if s.start_tls_enabled then some ({ s with state := .greeted }, response.STARTTLS_OK, [])
      else some (s, response.UNKNOWN_COMMAND, [])
    | .unknown _ => some (s, response.UNKNOWN_COMMAND, [])

/-- Observable I/O of a connection, in order of occurrence. -/
inductive WireEvent
  | tlsHandshake
  | write (resp : Response)
  | readLine
  | shutdown
deriving DecidableEq

/-- The command/response loop of `handle_mail_comm`: read a line, process it,
write and flush the response, until the action is `Close` (for the first loop,
with `stopOnUpgrade` set, also `UpgradeTls`).  Returns the session, the last
action, the wire events of the loop, and the unread input.  `none` models a
callback panic or a session whose input ends before the loop exits (a read
that blocks forever). -/
def commLoop (stopOnUpgrade : Bool) : Session → List Line → Option (Session × Action × List WireEvent × List Line)
  | _, [] => none
  | s, ℓ :: rest =>
    match s.process ℓ with
    | none => none
    | some (s', resp, _) =>
      if resp.action = Action.close ∨ (stopOnUpgrade ∧ resp.action = Action.upgradeTls) then
        some (s', resp.action, [.readLine, .write resp], rest)
      else
        match commLoop stopOnUpgrade s' rest with
        | none => none
        | some (s'', a, evs, rem) => some (s'', a, .readLine :: .write resp :: evs, rem)

/-- Translation of `SmtpServer::handle_mail_comm`: fresh result slot and handler, greeting
written first, then the loop; on `UpgradeTls` a TLS handshake (panicking, as
the source `expect` does, when no TLS config is present) and a second loop on
the upgraded stream; finally shutdown, returning the result slot. -/
def handle_mail_comm (session_start_tls : Bool) (tls_config : Option ServerConfig)
    (buf : Buf) (lines : List Line) : Option (Except Error SmtpEmail × List WireEvent) :=
  let s0 : Session :=
    { state := .greeted, start_tls_enabled := session_start_tls, handler := MailHandler.new buf }
  match commLoop true s0 lines with
  | none => none
  | some (s1, a, evs, rest) =>
    if a = Action.upgradeTls then
      match tls_config with
      | none => none
      | some _ =>
        match commLoop false s1 rest with
        | none => none
        | some (s2, _, evs2, _) =>
          some (s2.handler.received_mail,
            (WireEvent.write response.GREETING :: evs)
              ++ (WireEvent.tlsHandshake :: evs2) ++ [WireEvent.shutdown])
    else
      some (s1.handler.received_mail,
        (WireEvent.write response.GREETING :: evs) ++ [WireEvent.shutdown])

/-- Translation of `SmtpServer::recv_mail`: on an implicit-TLS listener the TLS handshake is
performed first (panicking, as the source `expect` does, when no TLS config is
present); then the common `handle_mail_comm` path runs. -/
def SmtpServer.recv_mail (srv : SmtpServer) (buf : Buf) (lines : List Line) :
    Option (Except Error SmtpEmail × List WireEvent) :=
  if srv.implicit_tls then
    match srv.tls_config with
    | none => none
    | some _ =>
      match handle_mail_comm srv.start_tls_enabled srv.tls_config buf lines with
      | none => none
      | some (r, evs) => some (r, WireEvent.tlsHandshake :: evs)
  else handle_mail_comm srv.start_tls_enabled srv.tls_config buf lines

/-- The filesystem destination (`FileDestination` in
`src/maildest/file_dest.rs`), owning a base directory path. -/
structure FileDestination where
  base_path : String
deriving DecidableEq

/-- A file path: base directory plus file name (the message id bytes). -/
abbrev FsPath := String × Bytes

/-- The filesystem, modelled as an association list from paths to contents. -/
abbrev FileSystem := List (FsPath × Bytes)

/-- Contents of the file at a path, if it exists. -/
def FileSystem.lookup (fs : FileSystem) (p : FsPath) : Option Bytes :=
  (fs.find? fun e => decide (e.1 = p)).map fun e => e.2

/-- Translation of `FileDestination::write_email`: open `base/<message_id>` with
create-new-exclusive semantics (`create_new(true)`), failing with an
`AlreadyExists` I/O error when the file exists; otherwise write the message id
bytes, two LF bytes, and the raw bytes, and flush. -/
def FileDestination.write_email (d : FileDestination) (fs : FileSystem) (email : Email) :
    FileSystem × Except Error Unit :=
  let dest_path : FsPath := (d.base_path, email.message_id)
  match fs.lookup dest_path with
  | some _ => (fs, .error (.sysIo .alreadyExists))
  | none => ((dest_path, email.message_id ++ [LF, LF] ++ email.raw) :: fs, .ok ())

/-- A configured destination: a file destination, or an abstract chat-room
destination whose write outcome is given by an oracle. -/
inductive Destination
  | file (d : FileDestination)
  | chatRoom (ok : Email → Bool)

/-- The destination capability `write_email`. -/
def Destination.write_email (d : Destination) (fs : FileSystem) (e : Email) :
    FileSystem × Except Error Unit :=
  match d with
  | .file fd => fd.write_email fs e
  | .chatRoom ok => (fs, if ok e then .ok () else .error (.matrix "send failed"))

/-- The recipient-to-destination map of the configuration. -/
abbrev DestMap := List (String × Destination)

/-- Translation of `HashMap::get` on the destination map. -/
def DestMap.get (m : DestMap) (addr : String) : Option Destination :=
  (m.find? fun e => decide (e.1 = addr)).map fun e => e.2

/-- What the dispatch loop does for one recipient: a successful write, a
logged write failure, or a logged missing-mapping warning. -/
inductive DispatchEvent
  | wrote (addr : String)
  | writeFailed (addr : String)
  | noMapping (addr : String)
deriving DecidableEq

/-- The recipient a dispatch event is about. -/
def DispatchEvent.addr : DispatchEvent → String
  | .wrote a => a
  | .writeFailed a => a
  | .noMapping a => a

/-- The per-recipient dispatch loop of the connection task in `src/main.rs`
(lines 108-129): for each recipient in order, look it up in the destination
map; if found, write the email (logging a failure without aborting); if
missing, log a warning and continue. -/
def dispatch (dest_map : DestMap) : List String → FileSystem → Email → FileSystem × List DispatchEvent
  | [], fs, _ => (fs, [])
  | addr :: rest, fs, content =>
    match dest_map.get addr with
    | some dest =>
      let fr := dest.write_email fs content
      let ev := match fr.2 with
        | .ok _ => DispatchEvent.wrote addr
        | .error _ => DispatchEvent.writeFailed addr
      let next := dispatch dest_map rest fr.1 content
      (next.1, ev :: next.2)
    | none =>
      let next := dispatch dest_map rest fs content
      (next.1, DispatchEvent.noMapping addr :: next.2)

/-- Dispatch of one accepted email: iterate over `email.to`. -/
def dispatchEmail (dest_map : DestMap) (fs : FileSystem) (e : SmtpEmail) :
    FileSystem × List DispatchEvent :=
  dispatch dest_map e.to' fs e.content

/-- The parts of the parsed configuration file that the TLS slice of
`Config::with_args` reads: the optional `certificates` table. -/
structure FileCfg where
  certificates : Option (List (String × Bytes))
deriving DecidableEq

/-- The loaded configuration (`Config` in `src/config.rs`), abstracted to the
fields the embedded claims read. -/
structure Config where
  local_addrs : List SocketAddr
  tls_config : Option ServerConfig
deriving DecidableEq

/-- The TLS slice of `Config::with_args` (`src/config.rs` lines 114-132): when
some bind address has port 465, the `certificates` section is required and
becomes the TLS configuration; otherwise no TLS configuration is loaded. -/
def Config.with_args (local_addrs : List SocketAddr) (file_cfg : FileCfg) :
    Except Error Config :=
  if local_addrs.any fun a => a.port == 465 then
    match file_cfg.certificates with
    | none => .error (.config "Missing certificates section in config file.")
    | some cert_section =>
      .ok { local_addrs := local_addrs, tls_config := some ⟨cert_section⟩ }
  else .ok { local_addrs := local_addrs, tls_config := none }

/-- The shape the spec asserts of every email a session hands to its caller:
nonempty recipient list, nonempty message id, raw bytes ending in CRLF. -/
def GoodEmail (e : SmtpEmail) : Prop :=
  e.to' ≠ [] ∧ e.content.message_id ≠ [] ∧ endsCRLF e.content.raw = true

/-- The session invariant: every `Ok` in the result slot is a good email; on
the way into and through the data phase the recipient list is nonempty; and
during the data phase the buffer is present and is empty or CRLF-terminated. -/
def SessionInv (s : Session) : Prop :=
  (∀ e, s.handler.received_mail = .ok e → GoodEmail e) ∧
  ((s.state = SState.awaitingData ∨ s.state = SState.receivingData) → s.handler.to' ≠ []) ∧
  (s.state = SState.receivingData →
    ∃ b, s.handler.msg_buf = some b ∧ (b.data = [] ∨ endsCRLF b.data = true))

/-- The per-recipient contract of the dispatch loop: the event is about this
recipient, a write is attempted exactly when the recipient is mapped, and a
missing mapping produces exactly the warning event. -/
def dispatchedRcpt (dest_map : DestMap) (addr : String) (ev : DispatchEvent) : Prop :=
  ev.addr = addr ∧
  ((dest_map.get addr).isSome = true ↔ (ev = .wrote addr ∨ ev = .writeFailed addr)) ∧
  (dest_map.get addr = none ↔ ev = .noMapping addr)

/-! ## Theorems -/

/-- Appending a CRLF yields a CRLF-terminated byte string. -/
theorem endsCRLF_append (xs : Bytes) : endsCRLF (xs ++ [CR, LF]) = true := by
  simp [endsCRLF, List.isSuffixOf]

/-- A message id extracted from a header line is nonempty. -/
theorem lineMessageId_ne_nil {l v : Bytes} (h : lineMessageId l = some v) : v ≠ [] := by
  unfold lineMessageId at h
  split at h
  · dsimp only at h
    split at h
    · exact absurd h (by simp)
    · rename_i hne
      injection h with h
      subst h
      simpa [List.isEmpty_iff] using hne
  · exact absurd h (by simp)

/-- What a successful `Email::parse` guarantees: the raw bytes are kept, the
message id is nonempty, and the payload was nonempty. -/
theorem Email.parse_ok_facts {raw : Bytes} {e : Email} (h : Email.parse raw = .ok e) :
    e.raw = raw ∧ e.message_id ≠ [] ∧ raw ≠ [] := by
  unfold Email.parse messageParse at h
  by_cases hraw : raw.isEmpty
  · simp [hraw] at h
  · rw [if_neg hraw] at h
    dsimp only [ParsedMessage.get_message_id] at h
    cases hf : (raw.splitOn LF).findSome? lineMessageId with
    | none => rw [hf] at h; exact absurd h (by simp)
    | some id =>
      rw [hf] at h
      injection h with h
      subst h
      refine ⟨rfl, ?_, by simpa [List.isEmpty_iff] using hraw⟩
      obtain ⟨l₁, a, l₂, -, ha, -⟩ := List.findSome?_eq_some_iff.mp hf
      exact lineMessageId_ne_nil ha

/-- C4.  For every session, whenever the `data_start` callback returns a
non-error response, the message buffer is present and empty, its allocation is
the one passed in (`Vec::clear`, not a replacement); if it was nonempty on
entry a warning is logged, and if it was already empty the handler is left
untouched with no log. -/
theorem data_start_clears_in_place (h h' : MailHandler) (r : Response) (logs : List LogEvent)
    (heq : h.data_start = (h', r, logs)) (hok : r.isError = false) :
    ∃ b b', h.msg_buf = some b ∧ h'.msg_buf = some b' ∧ b'.data = [] ∧
      b'.allocId = b.allocId ∧
      (b.data ≠ [] → logs = [LogEvent.warnDataStartBufNotEmpty]) ∧
      (b.data = [] → h' = h ∧ logs = []) := by
  unfold MailHandler.data_start at heq
  cases hb : h.msg_buf with
  | none =>
    rw [hb] at heq
    dsimp only at heq
    simp only [Prod.mk.injEq] at heq
    obtain ⟨-, hr, -⟩ := heq
    rw [← hr] at hok
    simp [Response.custom, Response.isError] at hok
  | some b =>
    rw [hb] at heq
    dsimp only at heq
    by_cases hbe : b.data.isEmpty
    · rw [if_pos hbe] at heq
      simp only [Prod.mk.injEq] at heq
      obtain ⟨hh, -, hl⟩ := heq
      refine ⟨b, b, rfl, ?_, ?_, rfl, ?_, ?_⟩
      · rw [← hh, hb]
      · simpa [List.isEmpty_iff] using hbe
      · intro hne
        exact absurd (by simpa [List.isEmpty_iff] using hbe) hne
      · intro _
        exact ⟨hh.symm, hl.symm⟩
    · rw [if_neg hbe] at heq
      simp only [Prod.mk.injEq] at heq
      obtain ⟨hh, -, hl⟩ := heq
      refine ⟨b, b.clear, rfl, ?_, rfl, rfl, ?_, ?_⟩
      · rw [← hh]
      · intro _
        exact hl.symm
      · intro hdata
        exact absurd hdata (by simpa [List.isEmpty_iff] using hbe)

/-- Witness for `data_start_clears_in_place` at a handler whose buffer holds
two stale bytes in allocation 5. -/
theorem data_start_clears_in_place_witness :
    ∃ b b', (MailHandler.mk none [] (some ⟨5, [1, 2]⟩) initialSlot).msg_buf = some b ∧
      (MailHandler.mk none [] (some ⟨5, []⟩) initialSlot).msg_buf = some b' ∧
      b'.data = [] ∧ b'.allocId = b.allocId ∧
      (b.data ≠ [] → [LogEvent.warnDataStartBufNotEmpty] = [LogEvent.warnDataStartBufNotEmpty]) ∧
      (b.data = [] → MailHandler.mk none [] (some ⟨5, []⟩) initialSlot =
          MailHandler.mk none [] (some ⟨5, [1, 2]⟩) initialSlot ∧
        [LogEvent.warnDataStartBufNotEmpty] = []) :=
  data_start_clears_in_place (MailHandler.mk none [] (some ⟨5, [1, 2]⟩) initialSlot)
    (MailHandler.mk none [] (some ⟨5, []⟩) initialSlot) response.OK
    [LogEvent.warnDataStartBufNotEmpty] rfl rfl

/-- A successful `write_email` pushed exactly the expected file and required
that the path was free. -/
theorem write_email_ok_shape {d : FileDestination} {fs fs' : FileSystem} {e : Email}
    (hw : d.write_email fs e = (fs', .ok ())) :
    fs' = ((d.base_path, e.message_id), e.message_id ++ [LF, LF] ++ e.raw) :: fs ∧
    fs.lookup (d.base_path, e.message_id) = none := by
  unfold FileDestination.write_email at hw
  dsimp only at hw
  cases hl : fs.lookup (d.base_path, e.message_id) with
  | some c =>
    rw [hl] at hw
    simp only [Prod.mk.injEq] at hw
    exact absurd hw.2 (by simp)
  | none =>
    rw [hl] at hw
    simp only [Prod.mk.injEq] at hw
    exact ⟨hw.1.symm, rfl⟩

/-- Looking up the path just written finds the new contents. -/
theorem lookup_cons_self (fs : FileSystem) (p : FsPath) (c : Bytes) :
    FileSystem.lookup ((p, c) :: fs) p = some c := by
  simp [FileSystem.lookup, List.find?]

/-- C6.  If `write_email` returns Ok, the file `base/<message_id>` exists and
its contents are exactly the message id bytes, two LF bytes, and the raw
bytes. -/
theorem write_email_ok_file_contents (d : FileDestination) (fs fs' : FileSystem) (e : Email)
    (hw : d.write_email fs e = (fs', .ok ())) :
    fs'.lookup (d.base_path, e.message_id) = some (e.message_id ++ [LF, LF] ++ e.raw) := by
  obtain ⟨rfl, -⟩ := write_email_ok_shape hw
  exact lookup_cons_self ..

/-- Witness for `write_email_ok_file_contents`: writing the email with id
`[60]` and raw `[104]` into an empty spool. -/
theorem write_email_ok_file_contents_witness :
    FileSystem.lookup [(("/spool", [60]), [60] ++ [LF, LF] ++ [104])] ("/spool", [60]) =
      some ([60] ++ [LF, LF] ++ [104]) :=
  write_email_ok_file_contents ⟨"/spool"⟩ []
    [(("/spool", [60]), [60] ++ [LF, LF] ++ [104])] ⟨[60], [104]⟩ rfl

/-- C7.  Replaying a write with the same message id fails with
`SysIo(AlreadyExists)` and leaves the filesystem, in particular the previously
written file, unchanged. -/
theorem write_email_replay_already_exists (d : FileDestination) (fs fs' : FileSystem)
    (e e' : Email) (hw : d.write_email fs e = (fs', .ok ()))
    (hid : e'.message_id = e.message_id) :
    d.write_email fs' e' = (fs', .error (.sysIo .alreadyExists)) ∧
    fs'.lookup (d.base_path, e.message_id) = some (e.message_id ++ [LF, LF] ++ e.raw) := by
  obtain ⟨rfl, -⟩ := write_email_ok_shape hw
  refine ⟨?_, lookup_cons_self ..⟩
  unfold FileDestination.write_email
  dsimp only
  rw [hid, lookup_cons_self]

/-- Witness for `write_email_replay_already_exists`: a second email with the
same id `[60]` but different raw bytes is rejected and the file keeps the
first contents. -/
theorem write_email_replay_already_exists_witness :
    FileDestination.write_email ⟨"/spool"⟩ [(("/spool", [60]), [60] ++ [LF, LF] ++ [104])]
        ⟨[60], [105]⟩ =
      ([(("/spool", [60]), [60] ++ [LF, LF] ++ [104])], .error (.sysIo .alreadyExists)) ∧
    FileSystem.lookup [(("/spool", [60]), [60] ++ [LF, LF] ++ [104])] ("/spool", [60]) =
      some ([60] ++ [LF, LF] ++ [104]) :=
  write_email_replay_already_exists ⟨"/spool"⟩ []
    [(("/spool", [60]), [60] ++ [LF, LF] ++ [104])] ⟨[60], [104]⟩ ⟨[60], [105]⟩ rfl rfl

/-- C9.  For every successfully loaded configuration, TLS material is present
iff some bind address has port 465, equivalently iff some bind address has
port 465 or some listener built from the configuration enables STARTTLS. -/
theorem with_args_tls_iff_port_465 (local_addrs : List SocketAddr) (file_cfg : FileCfg)
    (cfg : Config) (h : Config.with_args local_addrs file_cfg = .ok cfg) :
    cfg.tls_config.isSome = true ↔
      ((∃ a ∈ cfg.local_addrs, a.port = 465) ∨
       (∃ a ∈ cfg.local_addrs, (SmtpServer.new a cfg.tls_config).start_tls_enabled = true)) := by
  unfold Config.with_args at h
  by_cases hany : (local_addrs.any fun a => a.port == 465) = true
  · rw [if_pos hany] at h
    cases hc : file_cfg.certificates with
    | none =>
      rw [hc] at h
      exact absurd h (by simp)
    | some tbl =>
      rw [hc] at h
      injection h with h
      subst h
      simp only [Option.isSome_some, true_iff]
      left
      simpa [List.any_eq_true, beq_iff_eq] using hany
  · rw [if_neg hany] at h
    injection h with h
    subst h
    simp only [Option.isSome_none, Bool.false_eq_true, false_iff]
    push_neg
    refine ⟨?_, ?_⟩
    · intro a ha
      simp only [List.any_eq_true, beq_iff_eq, not_exists] at hany
      intro hport
      exact hany a ⟨ha, hport⟩
    · intro a _
      simp [SmtpServer.new]

/-- Witness for `with_args_tls_iff_port_465` at a single 465 listener with a
certificates section present. -/
theorem with_args_tls_iff_port_465_witness :
    (Config.mk [⟨"0.0.0.0", 465⟩] (some ⟨[]⟩)).tls_config.isSome = true ↔
      ((∃ a ∈ (Config.mk [⟨"0.0.0.0", 465⟩] (some ⟨[]⟩)).local_addrs, a.port = 465) ∨
       (∃ a ∈ (Config.mk [⟨"0.0.0.0", 465⟩] (some ⟨[]⟩)).local_addrs,
         (SmtpServer.new a (Config.mk [⟨"0.0.0.0", 465⟩] (some ⟨[]⟩)).tls_config).start_tls_enabled =
           true)) :=
  with_args_tls_iff_port_465 [⟨"0.0.0.0", 465⟩] (FileCfg.mk (some []))
    (Config.mk [⟨"0.0.0.0", 465⟩] (some ⟨[]⟩)) rfl

/-- C1 counterexample.  A first DATA_END whose empty payload fails the RFC
5322 parse writes `Err(MailParsing)` into the result slot but is answered with
code 250 (`response::OK`), not 554: the 554 arm of `data_end` fires only when
the slot already holds a non-SMTP error from an earlier DATA_END. -/
theorem data_end_first_parse_failure_counterexample :
    (MailHandler.data_end ⟨none, ["r@y"], some ⟨0, []⟩, initialSlot⟩).map
        (fun x => (x.2.1.code, x.1.received_mail)) =
      some (250, .error (.mailParsing "Could not parse RFC5322/RFC822 message.")) ∧
    (250 : Nat) ≠ 554 := ⟨rfl, by decide⟩

/-- C1 as amended.  For every session, a first DATA_END (result slot still in
its initial SMTP-error state) whose payload fails RFC 5322 parsing or lacks a
`Message-ID` header writes `Err(MailParsing)` into the result slot and is
answered with `response::OK`, code 250. -/
theorem data_end_first_parse_failure_responds_ok (h : MailHandler) (b : Buf) (m em : String)
    (hbuf : h.msg_buf = some b) (hslot : h.received_mail = .error (.smtp m))
    (hparse : Email.parse b.data = .error (.mailParsing em)) :
    ∃ h' logs, h.data_end = some (h', response.OK, logs) ∧
      h'.received_mail = .error (.mailParsing em) ∧ response.OK.code = 250 := by
  have hcm : SmtpEmail.new h.fromAddr h.to' b.data = .error (.mailParsing em) := by
    unfold SmtpEmail.new
    rw [hparse]
    rfl
  unfold MailHandler.data_end
  rw [hbuf]
  dsimp only
  rw [hslot]
  dsimp only
  exact ⟨_, _, rfl, by rw [hcm], rfl⟩

/-- Witness for `data_end_first_parse_failure_responds_ok` at the handler of a
session holding one recipient and an empty payload buffer. -/
theorem data_end_first_parse_failure_responds_ok_witness :
    ∃ h' logs, MailHandler.data_end ⟨none, ["r@y"], some ⟨0, []⟩, initialSlot⟩ =
        some (h', response.OK, logs) ∧
      h'.received_mail = .error (.mailParsing "Could not parse RFC5322/RFC822 message.") ∧
      response.OK.code = 250 :=
  data_end_first_parse_failure_responds_ok ⟨none, ["r@y"], some ⟨0, []⟩, initialSlot⟩ ⟨0, []⟩
    "No DATA_END reveived." "Could not parse RFC5322/RFC822 message." rfl rfl rfl

/-- C10 counterexample.  After the message buffer has been taken, invoking the
`data_end` callback panics (`self.msg_buf.take().unwrap()` on `None`), modelled
by `none` -- so it is not true that none of the three callbacks panics in this
state. -/
theorem buf_taken_data_end_panics_counterexample :
    MailHandler.data_end ⟨none, [], none, initialSlot⟩ = none := rfl

/-- C10 as amended.  After the message buffer has been taken, `data_start`
answers 503 with the handler (result slot included) unchanged, `data` returns
`Ok` discarding the chunk; neither panics, but `data_end` would panic in this
state. -/
theorem buf_taken_callbacks_behavior (h : MailHandler) (hbuf : h.msg_buf = none) :
    h.data_start = (h, Response.custom 503, [LogEvent.warnDataStartAfterBufTaken]) ∧
    (∀ chunk, h.data chunk = (h, [LogEvent.warnDataAfterBufTaken])) ∧
    h.data_end = none := by
  refine ⟨?_, ?_, ?_⟩
  · unfold MailHandler.data_start
    rw [hbuf]
  · intro chunk
    unfold MailHandler.data
    rw [hbuf]
  · unfold MailHandler.data_end
    rw [hbuf]

/-- Witness for `buf_taken_callbacks_behavior` at a fresh handler whose buffer
was taken, with a one-byte chunk. -/
theorem buf_taken_callbacks_behavior_witness :
    MailHandler.data_start ⟨some "s@x", [], none, initialSlot⟩ =
      (⟨some "s@x", [], none, initialSlot⟩, Response.custom 503,
        [LogEvent.warnDataStartAfterBufTaken]) ∧
    MailHandler.data ⟨some "s@x", [], none, initialSlot⟩ [7] =
      (⟨some "s@x", [], none, initialSlot⟩, [LogEvent.warnDataAfterBufTaken]) ∧
    MailHandler.data_end ⟨some "s@x", [], none, initialSlot⟩ = none :=
  ⟨(buf_taken_callbacks_behavior ⟨some "s@x", [], none, initialSlot⟩ rfl).1,
   (buf_taken_callbacks_behavior ⟨some "s@x", [], none, initialSlot⟩ rfl).2.1 [7],
   (buf_taken_callbacks_behavior ⟨some "s@x", [], none, initialSlot⟩ rfl).2.2⟩

/-- C3 counterexample.  A session that completes one mail and then attempts a
second MAIL/RCPT/DATA cycle: the second DATA is answered 503 (by `data_start`,
via the state machine), but the result slot still holds the first
`Ok(SmtpEmail)` at the end of the session -- it is not overwritten with
`Err(Smtp)`. -/
theorem second_data_end_counterexample :
    ((SmtpServer.new ⟨"127.0.0.1", 4025⟩ none).recv_mail ⟨0, []⟩
        [.helo "c.local", .mail "s@x", .rcpt "r@y", .dataCmd,
         .dataLine (strBytes "Message-ID: <m1@x>"), .dataEot,
         .mail "s@x", .rcpt "r@y", .dataCmd, .quit]).map
        (fun r =>
          ((match r.1 with
            | .ok e => some e.content.message_id
            | .error _ => none),
           r.2.filterMap fun ev =>
             match ev with
             | .write resp => some resp.code
             | _ => none)) =
      some (some (strBytes "<m1@x>"),
        [220, 250, 250, 250, 354, 0, 250, 250, 250, 503, 221]) := by
  decide

/-- C3 as amended.  In any session state whose result slot already holds
`Ok(SmtpEmail)` (so the message buffer has been taken), a second DATA command
is answered 503 by the `data_start` callback and the session state and result
slot are left unchanged; the `data_end` callback is not reached again, and
invoking it directly in this state panics on the taken buffer instead of
responding 503. -/
theorem second_data_rejected_by_data_start (s : Session) (e : SmtpEmail)
    (hok : s.handler.received_mail = .ok e) (hbuf : s.handler.msg_buf = none)
    (hst : s.state = SState.awaitingData) :
    (∃ logs, s.process Line.dataCmd = some (s, Response.custom 503, logs) ∧
      s.handler.received_mail = .ok e) ∧
    s.handler.data_end = none := by
  refine ⟨⟨[LogEvent.warnDataStartAfterBufTaken], ?_, hok⟩, ?_⟩
  · unfold Session.process
    rw [hst]
    dsimp only
    unfold MailHandler.data_start
    rw [hbuf]
    dsimp only
    simp only [Response.custom, Response.isError, decide_eq_true_eq, if_pos, if_true]
    rw [← hst]
    have h503 : (400 : Nat) ≤ 503 := by norm_num
    rw [if_pos h503]
  · unfold MailHandler.data_end
    rw [hbuf]

/-- Witness for `second_data_rejected_by_data_start` at a concrete
post-delivery session state. -/
theorem second_data_rejected_by_data_start_witness :
    (∃ logs, Session.process
        ⟨SState.awaitingData, false,
          ⟨none, ["r@y"], none, .ok ⟨some "s@x", ["r@y"], ⟨[60], [13, 10]⟩⟩⟩⟩ Line.dataCmd =
        some (⟨SState.awaitingData, false,
          ⟨none, ["r@y"], none, .ok ⟨some "s@x", ["r@y"], ⟨[60], [13, 10]⟩⟩⟩⟩,
          Response.custom 503, logs) ∧
      (MailHandler.mk none ["r@y"] none
          (.ok ⟨some "s@x", ["r@y"], ⟨[60], [13, 10]⟩⟩)).received_mail =
        .ok ⟨some "s@x", ["r@y"], ⟨[60], [13, 10]⟩⟩) ∧
    (MailHandler.mk none ["r@y"] none
        (.ok ⟨some "s@x", ["r@y"], ⟨[60], [13, 10]⟩⟩)).data_end = none :=
  second_data_rejected_by_data_start
    ⟨SState.awaitingData, false, ⟨none, ["r@y"], none,
      .ok ⟨some "s@x", ["r@y"], ⟨[60], [13, 10]⟩⟩⟩⟩
    ⟨some "s@x", ["r@y"], ⟨[60], [13, 10]⟩⟩ rfl rfl rfl

/-- The dispatch loop relates recipients and events pointwise. -/
theorem dispatch_forall₂ (dest_map : DestMap) (rcpts : List String) (fs : FileSystem)
    (content : Email) :
    List.Forall₂ (dispatchedRcpt dest_map) rcpts (dispatch dest_map rcpts fs content).2 := by
  induction rcpts generalizing fs with
  | nil => exact List.Forall₂.nil
  | cons addr rest ih =>
    unfold dispatch
    cases hg : dest_map.get addr with
    | some dest =>
      dsimp only
      refine List.Forall₂.cons ?_ (ih _)
      cases hw : (dest.write_email fs content).2 with
      | ok u => simp [dispatchedRcpt, DispatchEvent.addr, hg]
      | error err => simp [dispatchedRcpt, DispatchEvent.addr, hg]
    | none =>
      dsimp only
      refine List.Forall₂.cons ?_ (ih _)
      simp [dispatchedRcpt, DispatchEvent.addr, hg]

/-- A pointwise-dispatched event list names the recipients in order. -/
theorem forall₂_map_addr {dest_map : DestMap} :
    ∀ {l₁ : List String} {l₂ : List DispatchEvent},
      List.Forall₂ (dispatchedRcpt dest_map) l₁ l₂ → l₂.map DispatchEvent.addr = l₁ := by
  intro l₁ l₂ h
  induction h with
  | nil => rfl
  | cons hd _ ih => simpa [hd.1] using ih

/-- C8.  The dispatcher visits the recipients of an accepted email in list
order, producing exactly one event per recipient (so a failure for recipient i
cannot prevent the attempt for recipient i+1): a write is attempted exactly
for the mapped recipients, and unmapped recipients get the warning event. -/
theorem dispatch_visits_all_recipients_in_order (dest_map : DestMap) (fs : FileSystem)
    (e : SmtpEmail) :
    (dispatchEmail dest_map fs e).2.map DispatchEvent.addr = e.to' ∧
    List.Forall₂ (dispatchedRcpt dest_map) e.to' (dispatchEmail dest_map fs e).2 := by
  have h := dispatch_forall₂ dest_map e.to' fs e.content
  exact ⟨forall₂_map_addr h, h⟩

/-- C5.  STARTTLS is enabled on the session builder iff TLS is configured and
the port is not 465; implicit TLS is used iff TLS is configured and the port
is 465; and on an implicit-TLS listener every byte written to the client
(the greeting included) is preceded by the TLS handshake in the wire trace of
`recv_mail`. -/
theorem tls_mode_selection_and_handshake_first (addr : SocketAddr) (tc : Option ServerConfig) :
    ((SmtpServer.new addr tc).start_tls_enabled = true ↔
      tc.isSome = true ∧ addr.port ≠ 465) ∧
    ((SmtpServer.new addr tc).implicit_tls = true ↔
      tc.isSome = true ∧ addr.port = 465) ∧
    ((SmtpServer.new addr tc).implicit_tls = true →
      ∀ (buf : Buf) (lines : List Line) (r : Except Error SmtpEmail) (tr : List WireEvent),
        (SmtpServer.new addr tc).recv_mail buf lines = some (r, tr) →
        ∀ i, ∀ hi : i < tr.length, (∃ resp, tr.get ⟨i, hi⟩ = WireEvent.write resp) →
          ∃ j, ∃ hj : j < tr.length, j < i ∧ tr.get ⟨j, hj⟩ = WireEvent.tlsHandshake) := by
  refine ⟨?_, ?_, ?_⟩
  · simp [SmtpServer.new, Bool.and_eq_true, bne_iff_ne]
  · simp [SmtpServer.new, Bool.and_eq_true]
  · intro himp buf lines r tr hrun i hi hw
    unfold SmtpServer.recv_mail at hrun
    rw [if_pos himp] at hrun
    have htc : tc.isSome = true := by
      have himp' := himp
      simp only [SmtpServer.new, Bool.and_eq_true] at himp'
      exact himp'.1
    cases tc with
    | none => exact absurd htc (by simp)
    | some c =>
      dsimp only [SmtpServer.new] at hrun
      cases hm : handle_mail_comm ((some c).isSome && addr.port != 465) (some c) buf lines with
      | none => rw [hm] at hrun; exact absurd hrun (by simp)
      | some p =>
        rw [hm] at hrun
        dsimp only at hrun
        injection hrun with hrun
        obtain ⟨-, htr⟩ := Prod.mk.injEq .. ▸ hrun
        subst htr
        cases i with
        | zero =>
          obtain ⟨resp, hresp⟩ := hw
          exact absurd hresp (by simp [List.get])
        | succ k =>
          exact ⟨0, Nat.succ_pos _, Nat.succ_pos _, rfl⟩

/-- Witness for `tls_mode_selection_and_handshake_first`, part three, on a
TLS-configured port-465 listener whose client immediately quits: the write of
the greeting at index 1 is preceded by the handshake at index 0. -/
theorem tls_mode_selection_and_handshake_first_witness :
    ∃ j, ∃ hj : j < ([WireEvent.tlsHandshake, WireEvent.write response.GREETING,
        WireEvent.readLine, WireEvent.write response.GOODBYE,
        WireEvent.shutdown] : List WireEvent).length,
      j < 1 ∧ ([WireEvent.tlsHandshake, WireEvent.write response.GREETING,
        WireEvent.readLine, WireEvent.write response.GOODBYE,
        WireEvent.shutdown] : List WireEvent).get ⟨j, hj⟩ = WireEvent.tlsHandshake :=
  (tls_mode_selection_and_handshake_first ⟨"0.0.0.0", 465⟩ (some ⟨[]⟩)).2.2 rfl ⟨0, []⟩
    [Line.quit] (.error (.smtp "No DATA_END reveived."))
    [WireEvent.tlsHandshake, WireEvent.write response.GREETING, WireEvent.readLine,
      WireEvent.write response.GOODBYE, WireEvent.shutdown] rfl 1 (by decide)
    ⟨response.GREETING, rfl⟩

/-- The `mail` callback leaves recipients, buffer and result slot untouched. -/
theorem mail_shape (h : MailHandler) (f : String) :
    (h.mail f).1.to' = h.to' ∧ (h.mail f).1.msg_buf = h.msg_buf ∧
    (h.mail f).1.received_mail = h.received_mail := by
  unfold MailHandler.mail
  by_cases hv : isValidMailbox f <;> simp [hv]

/-- The `rcpt` callback leaves buffer and result slot untouched; on a
non-error response it appended the recipient, on an error response it left
the handler unchanged. -/
theorem rcpt_shape (h : MailHandler) (t : String) :
    (h.rcpt t).1.msg_buf = h.msg_buf ∧ (h.rcpt t).1.received_mail = h.received_mail ∧
    ((h.rcpt t).2.1.isError = false → (h.rcpt t).1.to' = h.to' ++ [t]) ∧
    ((h.rcpt t).2.1.isError = true → (h.rcpt t).1 = h) := by
  unfold MailHandler.rcpt
  by_cases hv : isValidMailbox t <;>
    simp [hv, Response.isError, response.OK, response.BAD_MAILBOX]

/-- The `data_start` callback leaves recipients and result slot untouched; on
a non-error response the buffer is present and empty. -/
theorem data_start_shape (h : MailHandler) :
    h.data_start.1.to' = h.to' ∧ h.data_start.1.received_mail = h.received_mail ∧
    (h.data_start.2.1.isError = false →
      ∃ b', h.data_start.1.msg_buf = some b' ∧ b'.data = []) := by
  unfold MailHandler.data_start
  cases hb : h.msg_buf with
  | none => simp [Response.custom, Response.isError]
  | some b =>
    dsimp only
    by_cases hbe : b.data.isEmpty
    · rw [if_pos hbe]
      refine ⟨rfl, rfl, fun _ => ⟨b, hb, ?_⟩⟩
      simpa [List.isEmpty_iff] using hbe
    · rw [if_neg hbe]
      exact ⟨rfl, rfl, fun _ => ⟨b.clear, rfl, rfl⟩⟩

/-- The `data` callback leaves recipients and result slot untouched and, when
the buffer is present, appends the chunk to it. -/
theorem data_shape (h : MailHandler) (chunk : Bytes) :
    (h.data chunk).1.to' = h.to' ∧ (h.data chunk).1.received_mail = h.received_mail ∧
    ∀ b, h.msg_buf = some b →
      (h.data chunk).1.msg_buf = some (b.extend_from_slice chunk) := by
  unfold MailHandler.data
  cases hb : h.msg_buf with
  | none =>
    refine ⟨rfl, rfl, fun b hbb => ?_⟩
    exact Option.noConfusion hbb
  | some b0 =>
    refine ⟨rfl, rfl, fun b hbb => ?_⟩
    injection hbb with hbb
    subst hbb
    rfl

/-- Whatever `data_end` wrote, an `Ok` in the slot afterwards can only be the
`SmtpEmail` built from the envelope and the buffer contents. -/
theorem data_end_slot (h : MailHandler) (b : Buf) (h' : MailHandler) (r : Response)
    (logs : List LogEvent) (hbuf : h.msg_buf = some b)
    (hde : h.data_end = some (h', r, logs)) :
    ∀ e, h'.received_mail = .ok e → SmtpEmail.new h.fromAddr h.to' b.data = .ok e := by
  unfold MailHandler.data_end at hde
  rw [hbuf] at hde
  dsimp only at hde
  cases hrm : h.received_mail with
  | ok e0 =>
    rw [hrm] at hde
    dsimp only at hde
    injection hde with hde
    obtain ⟨hh, -, -⟩ := Prod.mk.injEq .. ▸ hde
    intro e he
    rw [← hh] at he
    exact absurd he (by simp)
  | error err =>
    cases err with
    | smtp m =>
      rw [hrm] at hde
      dsimp only at hde
      injection hde with hde
      obtain ⟨hh, -, -⟩ := Prod.mk.injEq .. ▸ hde
      intro e he
      rw [← hh] at he
      exact he
    | config m =>
      rw [hrm] at hde
      dsimp only at hde
      injection hde with hde
      obtain ⟨hh, -, -⟩ := Prod.mk.injEq .. ▸ hde
      intro e he
      rw [← hh] at he
      dsimp only at he
      exact Except.noConfusion he
    | mailParsing m =>
      rw [hrm] at hde
      dsimp only at hde
      injection hde with hde
      obtain ⟨hh, -, -⟩ := Prod.mk.injEq .. ▸ hde
      intro e he
      rw [← hh] at he
      dsimp only at he
      exact Except.noConfusion he
    | matrix m =>
      rw [hrm] at hde
      dsimp only at hde
      injection hde with hde
      obtain ⟨hh, -, -⟩ := Prod.mk.injEq .. ▸ hde
      intro e he
      rw [← hh] at he
      dsimp only at he
      exact Except.noConfusion he
    | sysIo k =>
      rw [hrm] at hde
      dsimp only at hde
      injection hde with hde
      obtain ⟨hh, -, -⟩ := Prod.mk.injEq .. ▸ hde
      intro e he
      rw [← hh] at he
      dsimp only at he
      exact Except.noConfusion he
    | tls =>
      rw [hrm] at hde
      dsimp only at hde
      injection hde with hde
      obtain ⟨hh, -, -⟩ := Prod.mk.injEq .. ▸ hde
      intro e he
      rw [← hh] at he
      dsimp only at he
      exact Except.noConfusion he

/-- A successfully built `SmtpEmail` over a nonempty recipient list and an
empty-or-CRLF-terminated buffer is a good email. -/
theorem smtpEmail_new_good {fa : Option String} {rcpts : List String} {data : Bytes}
    {e : SmtpEmail} (h : SmtpEmail.new fa rcpts data = .ok e) (hto : rcpts ≠ [])
    (hdata : data = [] ∨ endsCRLF data = true) : GoodEmail e := by
  unfold SmtpEmail.new at h
  cases hp : Email.parse data with
  | error err =>
    rw [hp] at h
    exact absurd h (by simp [Except.map])
  | ok c =>
    rw [hp] at h
    simp only [Except.map] at h
    injection h with h
    obtain ⟨hraw, hid, hne⟩ := Email.parse_ok_facts hp
    rw [← h]
    refine ⟨hto, hid, ?_⟩
    dsimp only
    rw [hraw]
    cases hdata with
    | inl h0 => exact absurd h0 hne
    | inr hcr => exact hcr

/-- Appending a CRLF-terminated chunk leaves the buffer CRLF-terminated. -/
theorem extend_crlf (b : Buf) (x : Bytes) :
    endsCRLF (b.extend_from_slice (x ++ [CR, LF])).data = true := by
  dsimp [Buf.extend_from_slice]
  rw [← List.append_assoc]
  exact endsCRLF_append _

/-- The invariant is insensitive to the recorded library state as long as it
stays outside the data phase. -/
theorem SessionInv.nondata (st' : SState) (stls : Bool) (h : MailHandler)
    (h1 : st' ≠ SState.awaitingData) (h2 : st' ≠ SState.receivingData)
    (hgood : ∀ e, h.received_mail = .ok e → GoodEmail e) :
    SessionInv ⟨st', stls, h⟩ := by
  refine ⟨hgood, fun hor => ?_, fun hrd => ?_⟩
  · rcases hor with hh | hh
    · exact absurd hh h1
    · exact absurd hh h2
  · exact absurd hrd h2

/-- The invariant transports along an equality of the library state. -/
theorem SessionInv.transport {s : Session} (hinv : SessionInv s) (st' : SState)
    (hst : s.state = st') : SessionInv ⟨st', s.start_tls_enabled, s.handler⟩ := by
  obtain ⟨inv1, inv2, inv3⟩ := hinv
  exact ⟨inv1, fun hor => inv2 (by rw [hst]; exact hor),
    fun hrd => inv3 (by rw [hst]; exact hrd)⟩

/-- A successful RCPT re-establishes the invariant in the `AwaitingData`
state: the appended recipient makes the list nonempty. -/
theorem SessionInv.rcpt_success {s : Session} (hinv : SessionInv s) (t : String)
    (herr : (s.handler.rcpt t).2.1.isError = false) :
    SessionInv ⟨SState.awaitingData, s.start_tls_enabled, (s.handler.rcpt t).1⟩ := by
  obtain ⟨inv1, inv2, inv3⟩ := hinv
  refine ⟨fun e he => ?_, fun hor => ?_, fun hrd => ?_⟩
  · dsimp only at he
    rw [(rcpt_shape s.handler t).2.1] at he
    exact inv1 e he
  · dsimp only
    rw [(rcpt_shape s.handler t).2.2.1 herr]
    simp
  · exact absurd hrd (by simp)

/-- One step of the session state machine preserves the session invariant. -/
theorem process_inv {s s' : Session} {ℓ : Line} {r : Response} {logs : List LogEvent}
    (hinv : SessionInv s) (hp : s.process ℓ = some (s', r, logs)) : SessionInv s' := by
  obtain ⟨inv1, inv2, inv3⟩ := hinv
  unfold Session.process at hp
  cases hstate : s.state with
  | receivingData =>
    rw [hstate] at hp
    obtain ⟨b, hbuf, hbdata⟩ := inv3 hstate
    cases ℓ
    case dataEot =>
      dsimp only at hp
      cases hde : s.handler.data_end with
      | none =>
        rw [hde] at hp
        exact absurd hp (by simp)
      | some out =>
        rw [hde] at hp
        dsimp only at hp
        simp only [Option.some.injEq, Prod.mk.injEq] at hp
        obtain ⟨hs', -, -⟩ := hp
        subst hs'
        refine ⟨fun e he => ?_, fun hor => ?_, fun hrd => ?_⟩
        · dsimp only at he
          have hnew := data_end_slot s.handler b out.1 out.2.1 out.2.2 hbuf (by rw [hde]) e he
          exact smtpEmail_new_good hnew (inv2 (Or.inr hstate)) hbdata
        · rcases hor with h1 | h1 <;> exact absurd h1 (by simp)
        · exact absurd hrd (by simp)
    all_goals
      dsimp only at hp
      simp only [Option.some.injEq, Prod.mk.injEq] at hp
      obtain ⟨hs', -, -⟩ := hp
      subst hs'
      refine ⟨fun e he => ?_, fun hor => ?_, fun hrd => ?_⟩
      · dsimp only at he
        rw [(data_shape s.handler _).2.1] at he
        exact inv1 e he
      · dsimp only
        rw [(data_shape s.handler _).1]
        exact inv2 (Or.inr hstate)
      · exact ⟨_, (data_shape s.handler _).2.2 b hbuf, Or.inr (extend_crlf b _)⟩
  | closed =>
    rw [hstate] at hp
    dsimp only at hp
    simp only [Option.some.injEq, Prod.mk.injEq] at hp
    obtain ⟨hs', -, -⟩ := hp
    subst hs'
    exact ⟨inv1, inv2, inv3⟩
  | greeted =>
    rw [hstate] at hp
    cases ℓ
    case helo d =>
      dsimp only at hp
      simp only [Option.some.injEq, Prod.mk.injEq] at hp
      obtain ⟨hs', -, -⟩ := hp
      subst hs'
      exact SessionInv.nondata _ _ _ (by simp) (by simp) (fun e he => inv1 e he)
    case mail f =>
      dsimp only at hp
      rw [if_neg (by decide)] at hp
      simp only [Option.some.injEq, Prod.mk.injEq] at hp
      obtain ⟨hs', -, -⟩ := hp
      subst hs'
      exact ⟨inv1, inv2, inv3⟩
    case rcpt t =>
      dsimp only at hp
      rw [if_neg (by decide)] at hp
      simp only [Option.some.injEq, Prod.mk.injEq] at hp
      obtain ⟨hs', -, -⟩ := hp
      subst hs'
      exact ⟨inv1, inv2, inv3⟩
    case dataCmd =>
      dsimp only at hp
      rw [if_neg (by decide)] at hp
      simp only [Option.some.injEq, Prod.mk.injEq] at hp
      obtain ⟨hs', -, -⟩ := hp
      subst hs'
      exact ⟨inv1, inv2, inv3⟩
    case rset =>
      dsimp only at hp
      rw [if_pos rfl] at hp
      simp only [Option.some.injEq, Prod.mk.injEq] at hp
      obtain ⟨hs', -, -⟩ := hp
      subst hs'
      exact ⟨inv1, inv2, inv3⟩
    case quit =>
      dsimp only at hp
      simp only [Option.some.injEq, Prod.mk.injEq] at hp
      obtain ⟨hs', -, -⟩ := hp
      subst hs'
      exact SessionInv.nondata _ _ _ (by simp) (by simp) (fun e he => inv1 e he)
    case authPlain =>
      dsimp only at hp
      simp only [Option.some.injEq, Prod.mk.injEq] at hp
      obtain ⟨hs', -, -⟩ := hp
      subst hs'
      exact SessionInv.transport ⟨inv1, inv2, inv3⟩ _ hstate
    case startTls =>
      dsimp only at hp
      by_cases hstls : s.start_tls_enabled = true
      · rw [if_pos hstls] at hp
        simp only [Option.some.injEq, Prod.mk.injEq] at hp
        obtain ⟨hs', -, -⟩ := hp
        subst hs'
        exact SessionInv.nondata _ _ _ (by simp) (by simp) (fun e he => inv1 e he)
      · rw [if_neg hstls] at hp
        simp only [Option.some.injEq, Prod.mk.injEq] at hp
        obtain ⟨hs', -, -⟩ := hp
        subst hs'
        exact ⟨inv1, inv2, inv3⟩
    all_goals
      dsimp only at hp
      simp only [Option.some.injEq, Prod.mk.injEq] at hp
      obtain ⟨hs', -, -⟩ := hp
      subst hs'
      exact ⟨inv1, inv2, inv3⟩
  | awaitingMail =>
    rw [hstate] at hp
    cases ℓ
    case helo d =>
      dsimp only at hp
      simp only [Option.some.injEq, Prod.mk.injEq] at hp
      obtain ⟨hs', -, -⟩ := hp
      subst hs'
      exact SessionInv.nondata _ _ _ (by simp) (by simp) (fun e he => inv1 e he)
    case mail f =>
      dsimp only at hp
      rw [if_pos rfl] at hp
      by_cases herr : (s.handler.mail f).2.1.isError = true
      · rw [if_pos herr] at hp
        simp only [Option.some.injEq, Prod.mk.injEq] at hp
        obtain ⟨hs', -, -⟩ := hp
        subst hs'
        refine SessionInv.nondata _ _ _ (by simp) (by simp) (fun e he => inv1 e ?_)
        rw [(mail_shape s.handler f).2.2] at he
        exact he
      · rw [if_neg herr] at hp
        simp only [Option.some.injEq, Prod.mk.injEq] at hp
        obtain ⟨hs', -, -⟩ := hp
        subst hs'
        refine SessionInv.nondata _ _ _ (by simp) (by simp) (fun e he => inv1 e ?_)
        rw [(mail_shape s.handler f).2.2] at he
        exact he
    case rcpt t =>
      dsimp only at hp
      rw [if_neg (by decide)] at hp
      simp only [Option.some.injEq, Prod.mk.injEq] at hp
      obtain ⟨hs', -, -⟩ := hp
      subst hs'
      exact ⟨inv1, inv2, inv3⟩
    case dataCmd =>
      dsimp only at hp
      rw [if_neg (by decide)] at hp
      simp only [Option.some.injEq, Prod.mk.injEq] at hp
      obtain ⟨hs', -, -⟩ := hp
      subst hs'
      exact ⟨inv1, inv2, inv3⟩
    case rset =>
      dsimp only at hp
      rw [if_neg (by decide)] at hp
      simp only [Option.some.injEq, Prod.mk.injEq] at hp
      obtain ⟨hs', -, -⟩ := hp
      subst hs'
      exact SessionInv.nondata _ _ _ (by simp) (by simp) (fun e he => inv1 e he)
    case quit =>
      dsimp only at hp
      simp only [Option.some.injEq, Prod.mk.injEq] at hp
      obtain ⟨hs', -, -⟩ := hp
      subst hs'
      exact SessionInv.nondata _ _ _ (by simp) (by simp) (fun e he => inv1 e he)
    case authPlain =>
      dsimp only at hp
      simp only [Option.some.injEq, Prod.mk.injEq] at hp
      obtain ⟨hs', -, -⟩ := hp
      subst hs'
      exact SessionInv.transport ⟨inv1, inv2, inv3⟩ _ hstate
    case startTls =>
      dsimp only at hp
      by_cases hstls : s.start_tls_enabled = true
      · rw [if_pos hstls] at hp
        simp only [Option.some.injEq, Prod.mk.injEq] at hp
        obtain ⟨hs', -, -⟩ := hp
        subst hs'
        exact SessionInv.nondata _ _ _ (by simp) (by simp) (fun e he => inv1 e he)
      · rw [if_neg hstls] at hp
        simp only [Option.some.injEq, Prod.mk.injEq] at hp
        obtain ⟨hs', -, -⟩ := hp
        subst hs'
        exact ⟨inv1, inv2, inv3⟩
    all_goals
      dsimp only at hp
      simp only [Option.some.injEq, Prod.mk.injEq] at hp
      obtain ⟨hs', -, -⟩ := hp
      subst hs'
      exact ⟨inv1, inv2, inv3⟩
  | awaitingRcpt =>
    rw [hstate] at hp
    cases ℓ
    case helo d =>
      dsimp only at hp
      simp only [Option.some.injEq, Prod.mk.injEq] at hp
      obtain ⟨hs', -, -⟩ := hp
      subst hs'
      exact SessionInv.nondata _ _ _ (by simp) (by simp) (fun e he => inv1 e he)
    case mail f =>
      dsimp only at hp
      rw [if_neg (by decide)] at hp
      simp only [Option.some.injEq, Prod.mk.injEq] at hp
      obtain ⟨hs', -, -⟩ := hp
      subst hs'
      exact ⟨inv1, inv2, inv3⟩
    case rcpt t =>
      dsimp only at hp
      rw [if_pos (by decide)] at hp
      by_cases herr : (s.handler.rcpt t).2.1.isError = true
      · rw [if_pos herr] at hp
        simp only [Option.some.injEq, Prod.mk.injEq] at hp
        obtain ⟨hs', -, -⟩ := hp
        subst hs'
        have hh := (rcpt_shape s.handler t).2.2.2 herr
        refine SessionInv.nondata _ _ _ (by simp) (by simp) (fun e he => inv1 e ?_)
        rw [hh] at he
        exact he
      · rw [if_neg herr] at hp
        simp only [Option.some.injEq, Prod.mk.injEq] at hp
        obtain ⟨hs', -, -⟩ := hp
        subst hs'
        exact SessionInv.rcpt_success ⟨inv1, inv2, inv3⟩ t (by simpa using herr)
    case dataCmd =>
      dsimp only at hp
      rw [if_neg (by decide)] at hp
      simp only [Option.some.injEq, Prod.mk.injEq] at hp
      obtain ⟨hs', -, -⟩ := hp
      subst hs'
      exact ⟨inv1, inv2, inv3⟩
    case rset =>
      dsimp only at hp
      rw [if_neg (by decide)] at hp
      simp only [Option.some.injEq, Prod.mk.injEq] at hp
      obtain ⟨hs', -, -⟩ := hp
      subst hs'
      exact SessionInv.nondata _ _ _ (by simp) (by simp) (fun e he => inv1 e he)
    case quit =>
      dsimp only at hp
      simp only [Option.some.injEq, Prod.mk.injEq] at hp
      obtain ⟨hs', -, -⟩ := hp
      subst hs'
      exact SessionInv.nondata _ _ _ (by simp) (by simp) (fun e he => inv1 e he)
    case authPlain =>
      dsimp only at hp
      simp only [Option.some.injEq, Prod.mk.injEq] at hp
      obtain ⟨hs', -, -⟩ := hp
      subst hs'
      exact SessionInv.transport ⟨inv1, inv2, inv3⟩ _ hstate
    case startTls =>
      dsimp only at hp
      by_cases hstls : s.start_tls_enabled = true
      · rw [if_pos hstls] at hp
        simp only [Option.some.injEq, Prod.mk.injEq] at hp
        obtain ⟨hs', -, -⟩ := hp
        subst hs'
        exact SessionInv.nondata _ _ _ (by simp) (by simp) (fun e he => inv1 e he)
      · rw [if_neg hstls] at hp
        simp only [Option.some.injEq, Prod.mk.injEq] at hp
        obtain ⟨hs', -, -⟩ := hp
        subst hs'
        exact ⟨inv1, inv2, inv3⟩
    all_goals
      dsimp only at hp
      simp only [Option.some.injEq, Prod.mk.injEq] at hp
      obtain ⟨hs', -, -⟩ := hp
      subst hs'
      exact ⟨inv1, inv2, inv3⟩
  | awaitingData =>
    rw [hstate] at hp
    cases ℓ
    case helo d =>
      dsimp only at hp
      simp only [Option.some.injEq, Prod.mk.injEq] at hp
      obtain ⟨hs', -, -⟩ := hp
      subst hs'
      exact SessionInv.nondata _ _ _ (by simp) (by simp) (fun e he => inv1 e he)
    case mail f =>
      dsimp only at hp
      rw [if_neg (by decide)] at hp
      simp only [Option.some.injEq, Prod.mk.injEq] at hp
      obtain ⟨hs', -, -⟩ := hp
      subst hs'
      exact ⟨inv1, inv2, inv3⟩
    case rcpt t =>
      dsimp only at hp
      rw [if_pos (by decide)] at hp
      by_cases herr : (s.handler.rcpt t).2.1.isError = true
      · rw [if_pos herr] at hp
        simp only [Option.some.injEq, Prod.mk.injEq] at hp
        obtain ⟨hs', -, -⟩ := hp
        subst hs'
        have hh := (rcpt_shape s.handler t).2.2.2 herr
        rw [hh]
        exact SessionInv.transport ⟨inv1, inv2, inv3⟩ _ hstate
      · rw [if_neg herr] at hp
        simp only [Option.some.injEq, Prod.mk.injEq] at hp
        obtain ⟨hs', -, -⟩ := hp
        subst hs'
        exact SessionInv.rcpt_success ⟨inv1, inv2, inv3⟩ t (by simpa using herr)
    case dataCmd =>
      dsimp only at hp
      rw [if_pos rfl] at hp
      by_cases herr : s.handler.data_start.2.1.isError = true
      · rw [if_pos herr] at hp
        simp only [Option.some.injEq, Prod.mk.injEq] at hp
        obtain ⟨hs', -, -⟩ := hp
        subst hs'
        refine ⟨fun e he => ?_, fun hor => ?_, fun hrd => ?_⟩
        · dsimp only at he
          rw [(data_start_shape s.handler).2.1] at he
          exact inv1 e he
        · dsimp only
          rw [(data_start_shape s.handler).1]
          exact inv2 (Or.inl hstate)
        · exact absurd hrd (by simp)
      · rw [if_neg herr] at hp
        simp only [Option.some.injEq, Prod.mk.injEq] at hp
        obtain ⟨hs', -, -⟩ := hp
        subst hs'
        obtain ⟨b', hb', hb'e⟩ := (data_start_shape s.handler).2.2 (by simpa using herr)
        refine ⟨fun e he => ?_, fun hor => ?_, fun hrd => ?_⟩
        · dsimp only at he
          rw [(data_start_shape s.handler).2.1] at he
          exact inv1 e he
        · dsimp only
          rw [(data_start_shape s.handler).1]
          exact inv2 (Or.inl hstate)
        · exact ⟨b', hb', Or.inl hb'e⟩
    case rset =>
      dsimp only at hp
      rw [if_neg (by decide)] at hp
      simp only [Option.some.injEq, Prod.mk.injEq] at hp
      obtain ⟨hs', -, -⟩ := hp
      subst hs'
      exact SessionInv.nondata _ _ _ (by simp) (by simp) (fun e he => inv1 e he)
    case quit =>
      dsimp only at hp
      simp only [Option.some.injEq, Prod.mk.injEq] at hp
      obtain ⟨hs', -, -⟩ := hp
      subst hs'
      exact SessionInv.nondata _ _ _ (by simp) (by simp) (fun e he => inv1 e he)
    case authPlain =>
      dsimp only at hp
      simp only [Option.some.injEq, Prod.mk.injEq] at hp
      obtain ⟨hs', -, -⟩ := hp
      subst hs'
      exact SessionInv.transport ⟨inv1, inv2, inv3⟩ _ hstate
    case startTls =>
      dsimp only at hp
      by_cases hstls : s.start_tls_enabled = true
      · rw [if_pos hstls] at hp
        simp only [Option.some.injEq, Prod.mk.injEq] at hp
        obtain ⟨hs', -, -⟩ := hp
        subst hs'
        exact SessionInv.nondata _ _ _ (by simp) (by simp) (fun e he => inv1 e he)
      · rw [if_neg hstls] at hp
        simp only [Option.some.injEq, Prod.mk.injEq] at hp
        obtain ⟨hs', -, -⟩ := hp
        subst hs'
        exact ⟨inv1, inv2, inv3⟩
    all_goals
      dsimp only at hp
      simp only [Option.some.injEq, Prod.mk.injEq] at hp
      obtain ⟨hs', -, -⟩ := hp
      subst hs'
      exact ⟨inv1, inv2, inv3⟩

/-- The command/response loop preserves the session invariant. -/
theorem commLoop_inv (stop : Bool) (lines : List Line) :
    ∀ (s : Session) (out : Session × Action × List WireEvent × List Line),
      SessionInv s → commLoop stop s lines = some out → SessionInv out.1 := by
  induction lines with
  | nil =>
    intro s out hinv h
    exact absurd h (by simp [commLoop])
  | cons ℓ rest ih =>
    intro s out hinv h
    unfold commLoop at h
    cases hpr : s.process ℓ with
    | none =>
      rw [hpr] at h
      exact absurd h (by simp)
    | some pout =>
      rw [hpr] at h
      dsimp only at h
      have hinv' : SessionInv pout.1 := process_inv hinv (by rw [hpr])
      by_cases hc : (pout.2.1.action = Action.close ∨
          (stop = true ∧ pout.2.1.action = Action.upgradeTls))
      · rw [if_pos hc] at h
        simp only [Option.some.injEq] at h
        rw [← h]
        exact hinv'
      · rw [if_neg hc] at h
        cases hcl : commLoop stop pout.1 rest with
        | none =>
          rw [hcl] at h
          exact absurd h (by simp)
        | some out2 =>
          rw [hcl] at h
          simp only [Option.some.injEq] at h
          have := ih pout.1 out2 hinv' hcl
          rw [← h]
          exact this

/-- Whenever `handle_mail_comm` hands an `Ok(SmtpEmail)` to the caller, it is
a good email. -/
theorem handle_mail_comm_ok {stls : Bool} {tc : Option ServerConfig} {buf : Buf}
    {lines : List Line} {res : Except Error SmtpEmail} {evs : List WireEvent}
    (h : handle_mail_comm stls tc buf lines = some (res, evs)) :
    ∀ e, res = .ok e → GoodEmail e := by
  unfold handle_mail_comm at h
  have hinv0 : SessionInv ⟨.greeted, stls, MailHandler.new buf⟩ := by
    refine ⟨fun e he => ?_, fun hor => ?_, fun hrd => ?_⟩
    · exact absurd he (by simp [MailHandler.new, initialSlot])
    · rcases hor with h1 | h1 <;> exact absurd h1 (by simp)
    · exact absurd hrd (by simp)
  dsimp only at h
  cases hcl : commLoop true ⟨.greeted, stls, MailHandler.new buf⟩ lines with
  | none =>
    rw [hcl] at h
    exact absurd h (by simp)
  | some out =>
    rw [hcl] at h
    dsimp only at h
    have hinv1 := commLoop_inv true lines _ out hinv0 hcl
    by_cases ha : out.2.1 = Action.upgradeTls
    · rw [if_pos ha] at h
      cases tc with
      | none => exact absurd h (by simp)
      | some c =>
        dsimp only at h
        cases hcl2 : commLoop false out.1 out.2.2.2 with
        | none =>
          rw [hcl2] at h
          exact absurd h (by simp)
        | some out2 =>
          rw [hcl2] at h
          dsimp only at h
          simp only [Option.some.injEq, Prod.mk.injEq] at h
          obtain ⟨hres, -⟩ := h
          have hinv2 := commLoop_inv false out.2.2.2 out.1 out2 hinv1 hcl2
          intro e he
          refine hinv2.1 e ?_
          rw [hres]
          exact he
    · rw [if_neg ha] at h
      simp only [Option.some.injEq, Prod.mk.injEq] at h
      obtain ⟨hres, -⟩ := h
      intro e he
      refine hinv1.1 e ?_
      rw [hres]
      exact he

/-- C2.  Every `SmtpEmail` a session hands to its caller through the result
slot (`recv_mail` returning `Ok`) has a nonempty recipient list, a nonempty
message id, and raw bytes ending in CRLF. -/
theorem recv_mail_ok_invariants (srv : SmtpServer) (buf : Buf) (lines : List Line)
    (e : SmtpEmail)
    (h : (srv.recv_mail buf lines).map Prod.fst = some (.ok e)) :
    e.to' ≠ [] ∧ e.content.message_id ≠ [] ∧ endsCRLF e.content.raw = true := by
  unfold SmtpServer.recv_mail at h
  by_cases himp : srv.implicit_tls = true
  · rw [if_pos himp] at h
    cases htc : srv.tls_config with
    | none =>
      rw [htc] at h
      exact absurd h (by simp)
    | some c =>
      rw [htc] at h
      dsimp only at h
      cases hm : handle_mail_comm srv.start_tls_enabled srv.tls_config buf lines with
      | none =>
        rw [htc] at hm
        rw [hm] at h
        exact absurd h (by simp)
      | some p =>
        rw [htc] at hm
        rw [hm] at h
        simp only [Option.map_some', Option.some.injEq] at h
        exact handle_mail_comm_ok (by rw [hm]) e h
  · rw [if_neg himp] at h
    cases hm : handle_mail_comm srv.start_tls_enabled srv.tls_config buf lines with
    | none =>
      rw [hm] at h
      exact absurd h (by simp)
    | some p =>
      rw [hm] at h
      simp only [Option.map_some', Option.some.injEq] at h
      exact handle_mail_comm_ok (by rw [hm]) e h

/-- Witness for `recv_mail_ok_invariants` on a complete plain session that
delivers one mail with id `<m@x>`. -/
theorem recv_mail_ok_invariants_witness :
    (["r@y"] : List String) ≠ [] ∧ strBytes "<m@x>" ≠ [] ∧
      endsCRLF (strBytes "Message-ID: <m@x>" ++ [CR, LF]) = true :=
  recv_mail_ok_invariants (SmtpServer.new ⟨"127.0.0.1", 4025⟩ none) ⟨0, []⟩
    [.helo "c.local", .mail "s@x", .rcpt "r@y", .dataCmd,
     .dataLine (strBytes "Message-ID: <m@x>"), .dataEot, .quit]
    ⟨some "s@x", ["r@y"], ⟨strBytes "<m@x>", strBytes "Message-ID: <m@x>" ++ [CR, LF]⟩⟩
    (by decide)

end Kutsche


